import Mathlib

/-!
# Verification of the MCPlace canvas/event-log core

A shallow embedding of the canvas state and event-log engine of the
`microchipgnu/mcplace` repository (the `lib/canvas` module: pixel codec,
palette manager, canvas store, event log and the service operations
`getCanvas`, `setPixel`, `setPixels`, `resetCanvas`, `getCanvasEvents`).

Modelling conventions:
* JavaScript strings are modelled as `List Nat` of their code units (`JStr`).
* JavaScript numbers that carry coordinates, dimensions or limits are
  modelled as `ℚ` (they are doubles in the source, and the source
  distinguishes integer from non-integer values via `Number.isInteger`).
* The Redis backend is modelled as an explicit state `Sys` holding the
  canvas key (`Option CanvasState`) and the append-only event list.
* `throw new Error(...)` is modelled as `Except CanvasError`; the paired
  `Sys` component of each operation's result is the backend state at the
  moment the operation returns or throws, so writes performed before a
  throw persist, exactly as in the source.
* `Date.now()` is passed in explicitly as a `now : Nat` parameter.
-/

namespace MCPlace

/-! Rational arithmetic helpers. `Rat.mul`, `Rat.add` and `Rat.sub` are
irreducible in the ambient library, which blocks kernel evaluation of
concrete instances; these equivalent forms reduce. The bridge lemmas
`jsMul_eq`, `jsAdd_eq`, `jsSub_eq` identify them with the standard
operations for symbolic reasoning. -/

/-- Multiplication of two JS numbers (equals `a * b`, see `jsMul_eq`). -/
def jsMul (a b : ℚ) : ℚ := Rat.divInt (a.num * b.num) ((a.den : Int) * b.den)

/-- Addition of two JS numbers (equals `a + b`, see `jsAdd_eq`). -/
def jsAdd (a b : ℚ) : ℚ :=
  Rat.divInt (a.num * b.den + b.num * a.den) ((a.den : Int) * b.den)

/-- Subtraction of two JS numbers (equals `a - b`, see `jsSub_eq`). -/
def jsSub (a b : ℚ) : ℚ :=
  Rat.divInt (a.num * b.den - b.num * a.den) ((a.den : Int) * b.den)

/-- A JavaScript string, modelled as the list of its code units. -/
abbrev JStr := List Nat

/-- Code units of a Lean string literal, used to write concrete JS strings. -/
def strCodes (s : String) : JStr := s.data.map Char.toNat

/-- Whitespace recognised by `String.prototype.trim` (the code points that
occur in the claims' inputs: tab, LF, VT, FF, CR, space, NBSP). -/
def jsIsWs (c : Nat) : Bool :=
  c = 9 || c = 10 || c = 11 || c = 12 || c = 13 || c = 32 || c = 160

/-- `String.prototype.trim`: drop leading and trailing whitespace. -/
def jsTrim (s : JStr) : JStr :=
  ((s.dropWhile jsIsWs).reverse.dropWhile jsIsWs).reverse

/-- `String.prototype.toLowerCase` on one code unit (ASCII range, which is
all the color syntax in this program uses). -/
def jsLowerChar (c : Nat) : Nat :=
  if 65 ≤ c ∧ c ≤ 90 then c + 32 else c

/-- `String.prototype.toLowerCase`. -/
def jsToLower (s : JStr) : JStr := s.map jsLowerChar

/-- A lowercase hex digit `[0-9a-f]` (the regex is applied after
`toLowerCase`, so the `/i` flag adds nothing). -/
def isHexDigitLower (c : Nat) : Bool :=
  (48 ≤ c && c ≤ 57) || (97 ≤ c && c ≤ 102)

/-- `normalizeColorString` from `lib/canvas`: trim, lowercase, and expand
`#rgb` shorthand to `#rrggbb`; any other string passes through. -/
def normalizeColorString (input : JStr) : JStr :=
  match jsToLower (jsTrim input) with
  | [h, a, b, c] =>
    if h = 35 ∧ isHexDigitLower a ∧ isHexDigitLower b ∧ isHexDigitLower c then
      [35, a, a, b, b, c, c]
    else jsToLower (jsTrim input)
  | _ => jsToLower (jsTrim input)

/-- `Array.prototype.findIndex`, with `none` for the sentinel `-1`. -/
def jsFindIndex (p : α → Bool) : List α → Option Nat
  | [] => none
  | a :: l => if p a then some 0 else (jsFindIndex p l).map (· + 1)

/-- The error taxonomy of the core (each constructor models one of the
`throw new Error(...)` sites in `lib/canvas`). -/
inductive CanvasError
  | outOfBounds       -- "Pixel coordinates out of bounds"
  | invalidColor      -- "Color must be a non-empty string"
  | paletteFull       -- "Palette is full (max 256 colors ...)"
  | lengthMismatch    -- "Decoded pixels length ... does not match expected ..."
  | emptyBatch        -- "'updates' must be a non-empty array"
  | invalidDimensions -- "Width and height must be positive integers"
deriving DecidableEq, Repr

/-- The predicate `ensureColorInPalette` passes to `findIndex`: palette
entries matching the normalized form of `color`. -/
def colorPred (color : JStr) : JStr → Bool :=
  fun c => normalizeColorString c == normalizeColorString color

/-- `ensureColorInPalette` from `lib/canvas`. -/
def ensureColorInPalette (palette : List JStr) (color : JStr) :
    Except CanvasError (List JStr × Nat) :=
  match jsFindIndex (colorPred color) palette with
  | some i => .ok (palette, i)
  | none =>
    if 256 ≤ palette.length then .error .paletteFull
    else .ok (palette ++ [normalizeColorString color], palette.length)

/-! ## Base64 pixel codec -/

/-- The base64 alphabet: sextet value to code unit. -/
def sextetToCode (s : Nat) : Nat :=
  if s < 26 then 65 + s
  else if s < 52 then 97 + (s - 26)
  else if s < 62 then 48 + (s - 52)
  else if s = 62 then 43
  else 47

/-- Code unit back to sextet value; `none` for characters outside the
alphabet (Node's decoder skips those, including `=` padding). -/
def codeToSextet? (c : Nat) : Option Nat :=
  if 65 ≤ c ∧ c ≤ 90 then some (c - 65)
  else if 97 ≤ c ∧ c ≤ 122 then some (c - 97 + 26)
  else if 48 ≤ c ∧ c ≤ 57 then some (c - 48 + 52)
  else if c = 43 then some 62
  else if c = 47 then some 63
  else none

/-- `Buffer.from(pixels).toString("base64")`: encode bytes three at a time,
padding the final group with `=` (code 61). -/
def encodeChunks : List Nat → JStr
  | [] => []
  | [a] => [sextetToCode (a / 4), sextetToCode (a % 4 * 16), 61, 61]
  | [a, b] =>
    [sextetToCode (a / 4), sextetToCode (a % 4 * 16 + b / 16),
     sextetToCode (b % 16 * 4), 61]
  | a :: b :: c :: rest =>
    sextetToCode (a / 4) :: sextetToCode (a % 4 * 16 + b / 16) ::
    sextetToCode (b % 16 * 4 + c / 64) :: sextetToCode (c % 64) ::
    encodeChunks rest

/-- `encodePixelsToBase64` from `lib/canvas`. -/
def encodePixelsToBase64 (pixels : List Nat) : JStr := encodeChunks pixels

/-- Reassemble bytes from sextets four at a time; a trailing group of three
sextets yields two bytes, of two yields one, of one yields nothing
(Node's lenient base64 decoding). -/
def decodeSextets : List Nat → List Nat
  | s0 :: s1 :: s2 :: s3 :: rest =>
    (s0 * 4 + s1 / 16) :: (s1 % 16 * 16 + s2 / 4) :: (s2 % 4 * 64 + s3) ::
    decodeSextets rest
  | [s0, s1, s2] => [s0 * 4 + s1 / 16, s1 % 16 * 16 + s2 / 4]
  | [s0, s1] => [s0 * 4 + s1 / 16]
  | _ => []

/-- `Buffer.from(base64, "base64")`: keep alphabet characters, regroup. -/
def base64DecodeBytes (s : JStr) : List Nat :=
  decodeSextets (s.filterMap codeToSextet?)

/-- `decodePixelsFromBase64` from `lib/canvas`: decode, then fail with the
length-mismatch error when the byte count differs from `expectedLength`
(a JS number, hence `ℚ`). -/
def decodePixelsFromBase64 (base64 : JStr) (expectedLength : ℚ) :
    Except CanvasError (List Nat) :=
  let decoded := base64DecodeBytes base64
  if (decoded.length : ℚ) ≠ expectedLength then .error .lengthMismatch
  else .ok decoded

/-! ## Data model -/

/-- `CanvasMetadata` from `lib/canvas`. Width and height are JS numbers. -/
structure CanvasMetadata where
  width : ℚ
  height : ℚ
  palette : List JStr
deriving DecidableEq, Repr

/-- `CanvasState` from `lib/canvas`: metadata plus the base64-encoded grid. -/
structure CanvasState where
  meta : CanvasMetadata
  pixelsBase64 : JStr
deriving DecidableEq, Repr

/-- `PixelSource` from `lib/canvas`. -/
inductive PixelSource | mcp | api | script | system
deriving DecidableEq, Repr

/-- `ToolName` from `lib/canvas`. -/
inductive ToolName | get_canvas | set_pixel | set_pixels | get_events
deriving DecidableEq, Repr

/-- `PixelSetEvent` from `lib/canvas`. -/
structure PixelSetEvent where
  x : ℚ
  y : ℚ
  color : JStr
  colorIndex : Nat
  timestampMs : Nat
  source : PixelSource
deriving DecidableEq, Repr

/-- `CanvasEvent` from `lib/canvas`: the two event kinds of the log. -/
inductive CanvasEvent
  | pixel_set (e : PixelSetEvent)
  | tool_used (toolName : ToolName) (argsJson : JStr) (timestampMs : Nat)
deriving DecidableEq, Repr

/-- One stored entry of the Redis list `canvas:events:v1`: either the JSON
serialization of a canvas event (JSON round-trips, so we keep the event
itself), or a malformed/foreign entry that the readers skip. -/
inductive LogEntry
  | ev (e : CanvasEvent)
  | junk (s : JStr)
deriving DecidableEq, Repr

/-- The Redis backend: the canvas key `canvas:v1` and the event list
`canvas:events:v1`. -/
structure Sys where
  canvas : Option CanvasState
  log : List LogEntry
deriving DecidableEq, Repr

/-- The event readers' parse-and-validate step: a stored entry yields a
canvas event exactly when it is a well-formed serialized event. -/
def parseEntry : LogEntry → Option CanvasEvent
  | .ev e => some e
  | .junk _ => none

/-- A nonnegative integer JS number as a `Nat` (all call sites guarantee
integrality and nonnegativity). -/
def ratToNat (q : ℚ) : Nat := q.num.toNat

/-- `createEmptyPixels` from `lib/canvas`: a `width*height` grid of zeros. -/
def createEmptyPixels (width height : ℚ) : List Nat :=
  List.replicate (ratToNat (jsMul width height)) 0

/-- `indexFor` from `lib/canvas`: row-major index `y*width + x`. -/
def indexFor (x y width : ℚ) : ℚ := jsAdd (jsMul y width) x

/-- `pixels[i] = v` on a `Uint8Array`: stores `v mod 256` when `i` is a
nonnegative integer inside the array, silently does nothing otherwise
(non-integer and out-of-range indices are ignored by typed arrays). -/
def setGridAt (g : List Nat) (i : ℚ) (v : Nat) : List Nat :=
  if i.den = 1 ∧ 0 ≤ i.num then g.set i.num.toNat (v % 256) else g

/-- `DEFAULT_PALETTE` from `lib/canvas` (note: stored with uppercase hex). -/
def DEFAULT_PALETTE : List JStr :=
  ["#FFFFFF", "#E4E4E4", "#888888", "#222222", "#FFA7D1", "#E50000",
   "#E59500", "#A06A42", "#E5D900", "#94E044", "#02BE01", "#00D3DD",
   "#0083C7", "#0000EA", "#CF6EE4", "#820080"].map strCodes

/-! ## Service operations -/

/-- `getCanvas` from `lib/canvas`: read the canvas key; when absent,
initialize and persist the default 64x64 canvas. -/
def getCanvas (sys : Sys) : CanvasState × Sys :=
  match sys.canvas with
  | some state => (state, sys)
  | none =>
    let meta : CanvasMetadata := ⟨64, 64, DEFAULT_PALETTE⟩
    let pixels := createEmptyPixels meta.width meta.height
    let initial : CanvasState := ⟨meta, encodePixelsToBase64 pixels⟩
    (initial, { sys with canvas := some initial })

/-- `setPixel` from `lib/canvas`. The returned `Sys` is the backend state
when the call returns or throws. -/
def setPixel (sys : Sys) (x y : ℚ) (color : JStr) (source : Option PixelSource)
    (now : Nat) : Except CanvasError CanvasState × Sys :=
  let (current, sys1) := getCanvas sys
  let width := current.meta.width
  let height := current.meta.height
  if x < 0 ∨ y < 0 ∨ width ≤ x ∨ height ≤ y then
    (.error .outOfBounds, sys1)
  else if (jsTrim color).length = 0 then
    (.error .invalidColor, sys1)
  else
    match ensureColorInPalette current.meta.palette color with
    | .error e => (.error e, sys1)
    | .ok (palette, indexToSet) =>
      match decodePixelsFromBase64 current.pixelsBase64 (jsMul width height) with
      | .error e => (.error e, sys1)
      | .ok pixels0 =>
        let pixels := setGridAt pixels0 (indexFor x y width) indexToSet
        let updated : CanvasState :=
          ⟨{ current.meta with palette := palette }, encodePixelsToBase64 pixels⟩
        let normalizedColor := palette.getD indexToSet []
        let event : PixelSetEvent :=
          ⟨x, y, normalizedColor, indexToSet, now, source.getD .system⟩
        (.ok updated,
         { canvas := some updated, log := sys1.log ++ [.ev (.pixel_set event)] })

/-- `PixelUpdate` from `lib/canvas`. -/
structure PixelUpdate where
  x : ℚ
  y : ℚ
  color : JStr
deriving DecidableEq, Repr

/-- The body of `setPixels`' first loop: validate each update (integer
in-bounds coordinates, non-empty color), resolve its color, and write the
grid, in input order; the first failure aborts the whole fold. -/
def applyUpdates (width height : ℚ) :
    List JStr → List Nat → List PixelUpdate →
    Except CanvasError (List JStr × List Nat)
  | palette, pixels, [] => .ok (palette, pixels)
  | palette, pixels, u :: rest =>
    if ¬u.x.den = 1 ∨ ¬u.y.den = 1 ∨ u.x < 0 ∨ u.y < 0 ∨ width ≤ u.x ∨ height ≤ u.y then
      .error .outOfBounds
    else if (jsTrim u.color).length = 0 then
      .error .invalidColor
    else
      match ensureColorInPalette palette u.color with
      | .error e => .error e
      | .ok (palette', i) =>
        applyUpdates width height palette'
          (setGridAt pixels (indexFor u.x u.y width) i) rest

/-- The body of `setPixels`' second loop: one `pixel_set` event per update,
with color and index recomputed against the final palette; returns the
entries appended before a failure together with the failure, if any. -/
def eventsForUpdates (palette : List JStr) (source : PixelSource) (now : Nat) :
    List PixelUpdate → List LogEntry × Option CanvasError
  | [] => ([], none)
  | u :: rest =>
    match ensureColorInPalette palette u.color with
    | .error e => ([], some e)
    | .ok (_, colorIndex) =>
      let entry : LogEntry :=
        .ev (.pixel_set ⟨u.x, u.y, palette.getD colorIndex [], colorIndex, now, source⟩)
      let (es, err) := eventsForUpdates palette source now rest
      (entry :: es, err)

/-- `setPixels` from `lib/canvas`: validate-and-apply every update against
one decoded grid, persist once, then emit one event per update. -/
def setPixels (sys : Sys) (updates : List PixelUpdate)
    (source : Option PixelSource) (now : Nat) :
    Except CanvasError CanvasState × Sys :=
  if updates.isEmpty then (.error .emptyBatch, sys)
  else
    let (current, sys1) := getCanvas sys
    let width := current.meta.width
    let height := current.meta.height
    match decodePixelsFromBase64 current.pixelsBase64 (jsMul width height) with
    | .error e => (.error e, sys1)
    | .ok pixels0 =>
      match applyUpdates width height current.meta.palette pixels0 updates with
      | .error e => (.error e, sys1)
      | .ok (palette, pixels) =>
        let updated : CanvasState :=
          ⟨{ current.meta with palette := palette }, encodePixelsToBase64 pixels⟩
        let (es, err) := eventsForUpdates palette (source.getD .system) now updates
        let sys3 : Sys := { canvas := some updated, log := sys1.log ++ es }
        match err with
        | some e => (.error e, sys3)
        | none => (.ok updated, sys3)

/-- `resetCanvas` from `lib/canvas`: fresh all-zero grid; dimensions and
palette default to the existing state's; no event is appended. -/
def resetCanvas (sys : Sys) (width? height? : Option ℚ)
    (palette? : Option (List JStr)) : Except CanvasError CanvasState × Sys :=
  let (existing, sys1) := getCanvas sys
  let width := width?.getD existing.meta.width
  let height := height?.getD existing.meta.height
  let palette := palette?.getD existing.meta.palette
  if ¬width.den = 1 ∨ ¬height.den = 1 ∨ width ≤ 0 ∨ height ≤ 0 then
    (.error .invalidDimensions, sys1)
  else
    let updated : CanvasState :=
      ⟨⟨width, height, palette⟩, encodePixelsToBase64 (createEmptyPixels width height)⟩
    (.ok updated, { sys1 with canvas := some updated })

/-- `getCanvasEvents` from `lib/canvas`: with a positive numeric limit,
read the window `[max 0 (length - limit), length - 1]` of the list,
otherwise the whole list; parse each entry and skip malformed ones. -/
def getCanvasEvents (sys : Sys) (limit : Option ℚ) : List CanvasEvent :=
  match limit with
  | some q =>
    if 0 < q then
      let start := ratToNat (max 0 (jsSub (sys.log.length : ℚ) q))
      (sys.log.drop start).filterMap parseEntry
    else sys.log.filterMap parseEntry
  | none => sys.log.filterMap parseEntry

/-- The four service operations, for stating cross-operation invariants. -/
inductive CanvasOp
  | opGetCanvas
  | opSetPixel (x y : ℚ) (color : JStr) (source : Option PixelSource) (now : Nat)
  | opSetPixels (updates : List PixelUpdate) (source : Option PixelSource) (now : Nat)
  | opResetCanvas (width? height? : Option ℚ) (palette? : Option (List JStr))

/-- Effect of one operation on the backend state. -/
def applyOp (sys : Sys) : CanvasOp → Sys
  | .opGetCanvas => (getCanvas sys).2
  | .opSetPixel x y color source now => (setPixel sys x y color source now).2
  | .opSetPixels updates source now => (setPixels sys updates source now).2
  | .opResetCanvas w h p => (resetCanvas sys w h p).2

/-- The palette of the persisted canvas state (empty when uninitialized). -/
def sysPalette (sys : Sys) : List JStr :=
  match sys.canvas with
  | some st => st.meta.palette
  | none => []

/-- `l₂` extends `l₁`: every entry of `l₁` is still present, at the same
index, in `l₂` (append-only growth). -/
def extendsList (l₁ l₂ : List α) : Prop := ∃ t, l₂ = l₁ ++ t

/-- The color of the most recently appended `pixel_set` event, if the last
log entry is one. -/
def lastPixelColor (sys : Sys) : Option JStr :=
  match sys.log.getLast? with
  | some (.ev (.pixel_set e)) => some e.color
  | _ => none

/-- The empty backend: no canvas stored yet, empty event list. -/
def sysEmpty : Sys := ⟨none, []⟩

/-- An update fails `setPixels`' per-update validation: coordinates not
integers in `[0,width) × [0,height)`, or a color that trims to empty. -/
def updateInvalid (width height : ℚ) (u : PixelUpdate) : Prop :=
  (¬u.x.den = 1 ∨ ¬u.y.den = 1 ∨ u.x < 0 ∨ u.y < 0 ∨ width ≤ u.x ∨ height ≤ u.y) ∨
  (jsTrim u.color).length = 0

/-- The canvas state `getCanvas` initializes when the key is absent. -/
def defaultState : CanvasState :=
  ⟨⟨64, 64, DEFAULT_PALETTE⟩, encodePixelsToBase64 (createEmptyPixels 64 64)⟩

/-- A backend holding the freshly initialized default canvas and no events. -/
def sysDefault : Sys := ⟨some defaultState, []⟩

/-- A stored palette already holding 256 distinct two-character colors,
none of which normalizes to a four-character string. -/
def bigPalette : List JStr := (List.range 256).map fun i => [104, i]

instance {ε α : Type} [DecidableEq ε] [DecidableEq α] : DecidableEq (Except ε α) := fun
  | .ok a, .ok b =>
    match decEq a b with
    | isTrue h => isTrue (h ▸ rfl)
    | isFalse h => isFalse fun he => h (Except.ok.inj he)
  | .error a, .error b =>
    match decEq a b with
    | isTrue h => isTrue (h ▸ rfl)
    | isFalse h => isFalse fun he => h (Except.error.inj he)
  | .ok _, .error _ => isFalse nofun
  | .error _, .ok _ => isFalse nofun

/-! ## The reducible arithmetic helpers agree with the standard operations -/

theorem jsMul_eq (a b : ℚ) : jsMul a b = a * b := by
  rw [jsMul, Rat.mul_def, Rat.normalize_eq_mkRat, Rat.mkRat_eq_divInt]
  push_cast
  ring_nf

theorem jsAdd_eq (a b : ℚ) : jsAdd a b = a + b := by
  rw [jsAdd, Rat.add_def, Rat.normalize_eq_mkRat, Rat.mkRat_eq_divInt]
  push_cast
  ring_nf

theorem jsSub_eq (a b : ℚ) : jsSub a b = a - b := by
  rw [jsSub, Rat.sub_def, Rat.normalize_eq_mkRat, Rat.mkRat_eq_divInt]
  push_cast
  ring_nf

/-! ## Lemmas about `jsFindIndex` -/

theorem jsFindIndex_lt_length {p : α → Bool} {l : List α} {i : Nat}
    (h : jsFindIndex p l = some i) : i < l.length := by
  induction l generalizing i with
  | nil => simp [jsFindIndex] at h
  | cons a t ih =>
    rw [jsFindIndex] at h
    split at h
    · cases h
      simp
    · cases hi : jsFindIndex p t with
      | none => rw [hi] at h; cases h
      | some j =>
        rw [hi] at h
        simp only [Option.map_some'] at h
        cases h
        simpa using ih hi

theorem jsFindIndex_getD {p : α → Bool} {l : List α} {i : Nat} (d : α)
    (h : jsFindIndex p l = some i) : p (l.getD i d) = true := by
  induction l generalizing i with
  | nil => simp [jsFindIndex] at h
  | cons a t ih =>
    rw [jsFindIndex] at h
    split at h <;> rename_i hp
    · cases h
      simpa using hp
    · cases hi : jsFindIndex p t with
      | none => rw [hi] at h; cases h
      | some j =>
        rw [hi] at h
        simp only [Option.map_some'] at h
        cases h
        simpa using ih hi

theorem jsFindIndex_append_some {p : α → Bool} {l t : List α} {i : Nat}
    (h : jsFindIndex p l = some i) : jsFindIndex p (l ++ t) = some i := by
  induction l generalizing i with
  | nil => simp [jsFindIndex] at h
  | cons a l' ih =>
    rw [jsFindIndex] at h
    rw [List.cons_append, jsFindIndex]
    split at h <;> rename_i hp
    · cases h
      rw [if_pos hp]
    · rw [if_neg hp]
      cases hi : jsFindIndex p l' with
      | none => rw [hi] at h; cases h
      | some j =>
        rw [hi] at h
        simp only [Option.map_some'] at h
        cases h
        rw [ih hi]
        rfl

theorem jsFindIndex_none_forall {p : α → Bool} {l : List α}
    (h : jsFindIndex p l = none) : ∀ x ∈ l, p x = false := by
  induction l with
  | nil => simp
  | cons a t ih =>
    rw [jsFindIndex] at h
    split at h <;> rename_i hp
    · cases h
    · intro x hx
      rcases List.mem_cons.mp hx with rfl | hx
      · simpa using hp
      · cases hi : jsFindIndex p t with
        | some j => rw [hi] at h; cases h
        | none => exact ih hi x hx

theorem jsFindIndex_append_singleton {p : α → Bool} {l : List α} {x : α}
    (h : jsFindIndex p l = none) :
    jsFindIndex p (l ++ [x]) = if p x then some l.length else none := by
  induction l with
  | nil => simp [jsFindIndex]
  | cons a t ih =>
    rw [jsFindIndex] at h
    split at h <;> rename_i hp
    · cases h
    · cases hi : jsFindIndex p t with
      | some j => rw [hi] at h; cases h
      | none =>
        rw [List.cons_append, jsFindIndex, if_neg hp, ih hi]
        split <;> simp

/-! ## Color normalization is idempotent -/

theorem jsLowerChar_idem (c : Nat) : jsLowerChar (jsLowerChar c) = jsLowerChar c := by
  unfold jsLowerChar
  split <;> rename_i h
  · rw [if_neg (by omega)]
  · rfl

theorem jsToLower_idem (s : JStr) : jsToLower (jsToLower s) = jsToLower s := by
  unfold jsToLower
  rw [List.map_map]
  exact List.map_congr_left fun a _ => jsLowerChar_idem a

theorem jsIsWs_jsLowerChar (c : Nat) : jsIsWs (jsLowerChar c) = jsIsWs c := by
  unfold jsLowerChar
  split <;> rename_i h
  · have h1 : jsIsWs (c + 32) = false := by
      simp only [jsIsWs, Bool.or_eq_false_iff, decide_eq_false_iff_not]
      omega
    have h2 : jsIsWs c = false := by
      simp only [jsIsWs, Bool.or_eq_false_iff, decide_eq_false_iff_not]
      omega
    rw [h1, h2]
  · rfl

theorem dropWhile_head_false {p : α → Bool} {l : List α} {a : α}
    (h : (l.dropWhile p).head? = some a) : p a = false := by
  have hw := List.head?_dropWhile_not p l
  rw [h] at hw
  exact hw

theorem dropWhile_eq_self_of_head {p : α → Bool} {l : List α}
    (h : ∀ a, l.head? = some a → p a = false) : l.dropWhile p = l := by
  cases l with
  | nil => rfl
  | cons a t => exact List.dropWhile_cons_of_neg (by simp [h a rfl])

theorem dropWhile_idem (p : α → Bool) (l : List α) :
    (l.dropWhile p).dropWhile p = l.dropWhile p :=
  dropWhile_eq_self_of_head fun _ ha => dropWhile_head_false ha

theorem getLast?_dropWhile {p : α → Bool} {l : List α} (h : l.dropWhile p ≠ []) :
    (l.dropWhile p).getLast? = l.getLast? := by
  obtain ⟨pre, hpre⟩ := List.dropWhile_suffix p (l := l)
  conv_rhs => rw [← hpre]
  rw [List.getLast?_append]
  cases hg : (l.dropWhile p).getLast? with
  | some a => rfl
  | none => exact absurd (List.getLast?_eq_none_iff.mp hg) h

theorem jsTrim_idem (s : JStr) : jsTrim (jsTrim s) = jsTrim s := by
  have step1 : (jsTrim s).dropWhile jsIsWs = jsTrim s := by
    apply dropWhile_eq_self_of_head
    intro a ha
    unfold jsTrim at ha
    rw [List.head?_reverse] at ha
    have hne : (s.dropWhile jsIsWs).reverse.dropWhile jsIsWs ≠ [] := by
      intro h0
      rw [h0] at ha
      cases ha
    rw [getLast?_dropWhile hne, List.getLast?_reverse] at ha
    exact dropWhile_head_false ha
  have e : (jsTrim s).reverse = (s.dropWhile jsIsWs).reverse.dropWhile jsIsWs := by
    unfold jsTrim
    rw [List.reverse_reverse]
  show (((jsTrim s).dropWhile jsIsWs).reverse.dropWhile jsIsWs).reverse = jsTrim s
  rw [step1, e, dropWhile_idem, ← e, List.reverse_reverse]

theorem jsTrim_jsToLower (s : JStr) : jsTrim (jsToLower s) = jsToLower (jsTrim s) := by
  have hpf : (jsIsWs ∘ jsLowerChar) = jsIsWs := funext jsIsWs_jsLowerChar
  unfold jsTrim jsToLower
  rw [List.dropWhile_map, hpf, ← List.map_reverse, List.dropWhile_map, hpf,
    ← List.map_reverse]

theorem trimLower_fix (s : JStr) :
    jsToLower (jsTrim (jsToLower (jsTrim s))) = jsToLower (jsTrim s) := by
  rw [jsTrim_jsToLower, jsTrim_idem, jsToLower_idem]

theorem jsIsWs_of_hex {c : Nat} (h : isHexDigitLower c = true) : jsIsWs c = false := by
  simp only [isHexDigitLower, Bool.or_eq_true, Bool.and_eq_true, decide_eq_true_eq] at h
  simp only [jsIsWs, Bool.or_eq_false_iff, decide_eq_false_iff_not]
  omega

theorem jsLowerChar_of_hex {c : Nat} (h : isHexDigitLower c = true) :
    jsLowerChar c = c := by
  simp only [isHexDigitLower, Bool.or_eq_true, Bool.and_eq_true, decide_eq_true_eq] at h
  unfold jsLowerChar
  rw [if_neg (by omega)]

theorem trimLower_expand {a b c : Nat} (ha : isHexDigitLower a = true)
    (hb : isHexDigitLower b = true) (hc : isHexDigitLower c = true) :
    jsToLower (jsTrim [35, a, a, b, b, c, c]) = [35, a, a, b, b, c, c] := by
  have hwc : ¬ jsIsWs c = true := by simp [jsIsWs_of_hex hc]
  have h35 : ¬ jsIsWs 35 = true := by decide
  unfold jsTrim
  rw [List.dropWhile_cons_of_neg h35]
  have hrev : ([35, a, a, b, b, c, c] : JStr).reverse = [c, c, b, b, a, a, 35] := by
    simp
  rw [hrev, List.dropWhile_cons_of_neg hwc]
  have hrev2 : ([c, c, b, b, a, a, 35] : JStr).reverse = [35, a, a, b, b, c, c] := by
    simp
  rw [hrev2]
  simp [jsToLower, jsLowerChar_of_hex ha, jsLowerChar_of_hex hb, jsLowerChar_of_hex hc,
    show jsLowerChar 35 = 35 from rfl]

theorem normalize_of_shape {s : JStr} {h0 a b c : Nat}
    (ht : jsToLower (jsTrim s) = [h0, a, b, c]) :
    normalizeColorString s =
      if h0 = 35 ∧ isHexDigitLower a ∧ isHexDigitLower b ∧ isHexDigitLower c then
        [35, a, a, b, b, c, c]
      else [h0, a, b, c] := by
  unfold normalizeColorString
  rw [ht]

theorem normalize_of_no4 {s : JStr}
    (h : ∀ h0 a b c, jsToLower (jsTrim s) ≠ ([h0, a, b, c] : JStr)) :
    normalizeColorString s = jsToLower (jsTrim s) := by
  unfold normalizeColorString
  split <;> rename_i heq
  · exact absurd heq (h _ _ _ _)
  · rfl

theorem normalize_fix_of_inner_fix {t : JStr} (hfix : jsToLower (jsTrim t) = t)
    (hno : ∀ h0 a b c, t = ([h0, a, b, c] : JStr) →
      ¬(h0 = 35 ∧ isHexDigitLower a = true ∧ isHexDigitLower b = true ∧
        isHexDigitLower c = true)) :
    normalizeColorString t = t := by
  unfold normalizeColorString
  rw [hfix]
  split
  · rename_i h0 a b c
    rw [if_neg (hno h0 a b c rfl)]
  · rfl

theorem normalizeColorString_idem (s : JStr) :
    normalizeColorString (normalizeColorString s) = normalizeColorString s := by
  by_cases h4 : ∃ h0 a b c, jsToLower (jsTrim s) = ([h0, a, b, c] : JStr)
  · obtain ⟨h0, a, b, c, ht⟩ := h4
    by_cases hg : h0 = 35 ∧ isHexDigitLower a = true ∧ isHexDigitLower b = true ∧
        isHexDigitLower c = true
    · obtain ⟨rfl, ha, hb, hc⟩ := hg
      have hn : normalizeColorString s = [35, a, a, b, b, c, c] := by
        rw [normalize_of_shape ht, if_pos ⟨rfl, ha, hb, hc⟩]
      rw [hn]
      apply normalize_fix_of_inner_fix (trimLower_expand ha hb hc)
      intro h0' a' b' c' heq
      exfalso
      have := congrArg List.length heq
      simp at this
    · have hn : normalizeColorString s = jsToLower (jsTrim s) := by
        rw [normalize_of_shape ht, if_neg hg, ht]
      rw [hn]
      apply normalize_fix_of_inner_fix (trimLower_fix s)
      intro h0' a' b' c' heq
      rw [ht] at heq
      obtain ⟨rfl, rfl, rfl, rfl⟩ : h0 = h0' ∧ a = a' ∧ b = b' ∧ c = c' := by
        simpa using heq
      exact hg
  · push_neg at h4
    have hn : normalizeColorString s = jsToLower (jsTrim s) := normalize_of_no4 h4
    rw [hn]
    apply normalize_fix_of_inner_fix (trimLower_fix s)
    intro h0' a' b' c' heq
    exact absurd heq (h4 _ _ _ _)

/-! ## Lemmas about `extendsList` -/

theorem extendsList_refl (l : List α) : extendsList l l :=
  ⟨[], (List.append_nil l).symm⟩

theorem extendsList_trans {a b c : List α}
    (h1 : extendsList a b) (h2 : extendsList b c) : extendsList a c := by
  obtain ⟨t1, rfl⟩ := h1
  obtain ⟨t2, rfl⟩ := h2
  exact ⟨t1 ++ t2, List.append_assoc a t1 t2⟩

theorem extendsList_length {a b : List α} (h : extendsList a b) :
    a.length ≤ b.length := by
  obtain ⟨t, rfl⟩ := h
  simp

/-! ## Lemmas about `ensureColorInPalette` -/

theorem ensure_found_ok {pal : List JStr} {color : JStr} {i : Nat}
    (h : jsFindIndex (colorPred color) pal = some i) :
    ensureColorInPalette pal color = .ok (pal, i) := by
  unfold ensureColorInPalette
  rw [h]

theorem ensure_of_find_none {pal : List JStr} {color : JStr}
    (h : jsFindIndex (colorPred color) pal = none) :
    ensureColorInPalette pal color =
      if 256 ≤ pal.length then .error .paletteFull
      else .ok (pal ++ [normalizeColorString color], pal.length) := by
  unfold ensureColorInPalette
  rw [h]

theorem ensure_ok_extends {pal pal' : List JStr} {color : JStr} {i : Nat}
    (h : ensureColorInPalette pal color = .ok (pal', i)) :
    extendsList pal pal' ∧ i < pal'.length := by
  cases hf : jsFindIndex (colorPred color) pal with
  | some j =>
    rw [ensure_found_ok hf] at h
    cases h
    exact ⟨extendsList_refl _, jsFindIndex_lt_length hf⟩
  | none =>
    rw [ensure_of_find_none hf] at h
    split at h
    · cases h
    · cases h
      refine ⟨⟨[normalizeColorString color], rfl⟩, ?_⟩
      simp

theorem ensure_error_eq {pal : List JStr} {color : JStr} {e : CanvasError}
    (h : ensureColorInPalette pal color = .error e) : e = .paletteFull := by
  cases hf : jsFindIndex (colorPred color) pal with
  | some j => rw [ensure_found_ok hf] at h; cases h
  | none =>
    rw [ensure_of_find_none hf] at h
    split at h
    · cases h
      rfl
    · cases h

theorem ensure_found {pal pal' : List JStr} {color : JStr} {i : Nat}
    (h : ensureColorInPalette pal color = .ok (pal', i)) :
    jsFindIndex (colorPred color) pal' = some i := by
  cases hf : jsFindIndex (colorPred color) pal with
  | some j =>
    rw [ensure_found_ok hf] at h
    cases h
    exact hf
  | none =>
    rw [ensure_of_find_none hf] at h
    split at h
    · cases h
    · cases h
      rw [jsFindIndex_append_singleton hf]
      have : colorPred color (normalizeColorString color) = true := by
        unfold colorPred
        rw [normalizeColorString_idem]
        exact beq_self_eq_true _
      rw [if_pos this]

theorem ensure_getD_normalize {pal pal' : List JStr} {color : JStr} {i : Nat}
    (h : ensureColorInPalette pal color = .ok (pal', i)) :
    normalizeColorString (pal'.getD i []) = normalizeColorString color := by
  have hp := jsFindIndex_getD [] (ensure_found h)
  unfold colorPred at hp
  exact eq_of_beq hp

/-! ## The pixel codec round-trips -/

theorem codeToSextet_sextetToCode {s : Nat} (h : s < 64) :
    codeToSextet? (sextetToCode s) = some s := by
  have hall : ∀ s, s < 64 → codeToSextet? (sextetToCode s) = some s := by decide
  exact hall s h

theorem decode_encode : ∀ (l : List Nat), (∀ b ∈ l, b < 256) →
    base64DecodeBytes (encodePixelsToBase64 l) = l
  | [], _ => rfl
  | [a], h => by
    have ha : a < 256 := h a (by simp)
    show decodeSextets (List.filterMap codeToSextet? (encodeChunks [a])) = [a]
    rw [show encodeChunks [a] =
        [sextetToCode (a / 4), sextetToCode (a % 4 * 16), 61, 61] from rfl]
    rw [List.filterMap_cons_some (codeToSextet_sextetToCode (by omega)),
        List.filterMap_cons_some (codeToSextet_sextetToCode (by omega)),
        List.filterMap_cons_none (show codeToSextet? 61 = none from rfl),
        List.filterMap_cons_none (show codeToSextet? 61 = none from rfl),
        List.filterMap_nil]
    show [a / 4 * 4 + a % 4 * 16 / 16] = [a]
    congr 1
    omega
  | [a, b], h => by
    have ha : a < 256 := h a (by simp)
    have hb : b < 256 := h b (by simp)
    show decodeSextets (List.filterMap codeToSextet? (encodeChunks [a, b])) = [a, b]
    rw [show encodeChunks [a, b] =
        [sextetToCode (a / 4), sextetToCode (a % 4 * 16 + b / 16),
         sextetToCode (b % 16 * 4), 61] from rfl]
    rw [List.filterMap_cons_some (codeToSextet_sextetToCode (by omega)),
        List.filterMap_cons_some (codeToSextet_sextetToCode (by omega)),
        List.filterMap_cons_some (codeToSextet_sextetToCode (by omega)),
        List.filterMap_cons_none (show codeToSextet? 61 = none from rfl),
        List.filterMap_nil]
    show [a / 4 * 4 + (a % 4 * 16 + b / 16) / 16,
          (a % 4 * 16 + b / 16) % 16 * 16 + b % 16 * 4 / 4] = [a, b]
    simp only [List.cons.injEq, and_true]
    constructor <;> omega
  | a :: b :: c :: rest, h => by
    have ha : a < 256 := h a (by simp)
    have hb : b < 256 := h b (by simp)
    have hc : c < 256 := h c (by simp)
    have ih := decode_encode rest fun x hx => h x (by simp [hx])
    show decodeSextets (List.filterMap codeToSextet? (encodeChunks (a :: b :: c :: rest))) =
      a :: b :: c :: rest
    rw [show encodeChunks (a :: b :: c :: rest) =
        sextetToCode (a / 4) :: sextetToCode (a % 4 * 16 + b / 16) ::
        sextetToCode (b % 16 * 4 + c / 64) :: sextetToCode (c % 64) ::
        encodeChunks rest from rfl]
    rw [List.filterMap_cons_some (codeToSextet_sextetToCode (by omega)),
        List.filterMap_cons_some (codeToSextet_sextetToCode (by omega)),
        List.filterMap_cons_some (codeToSextet_sextetToCode (by omega)),
        List.filterMap_cons_some (codeToSextet_sextetToCode (by omega))]
    show (a / 4 * 4 + (a % 4 * 16 + b / 16) / 16) ::
         ((a % 4 * 16 + b / 16) % 16 * 16 + (b % 16 * 4 + c / 64) / 4) ::
         ((b % 16 * 4 + c / 64) % 4 * 64 + c % 64) ::
         decodeSextets (List.filterMap codeToSextet? (encodeChunks rest)) =
         a :: b :: c :: rest
    rw [show decodeSextets (List.filterMap codeToSextet? (encodeChunks rest)) = rest from ih]
    simp only [List.cons.injEq, and_true]
    refine ⟨by omega, by omega, by omega⟩

theorem decodePixels_encode_ok {l : List Nat} (h : ∀ b ∈ l, b < 256) :
    decodePixelsFromBase64 (encodePixelsToBase64 l) (l.length : ℚ) = .ok l := by
  unfold decodePixelsFromBase64
  rw [show base64DecodeBytes (encodePixelsToBase64 l) = l from decode_encode l h,
    if_neg (by simp)]

theorem decodePixels_error_iff (b64 : JStr) (expected : ℚ) :
    decodePixelsFromBase64 b64 expected = .error .lengthMismatch ↔
      ((base64DecodeBytes b64).length : ℚ) ≠ expected := by
  by_cases hc : ((base64DecodeBytes b64).length : ℚ) ≠ expected
  · simp [decodePixelsFromBase64, hc]
  · simp [decodePixelsFromBase64, hc]

/-! ## Lemmas about `getCanvas` -/

theorem getCanvas_of_some {sys : Sys} {st : CanvasState} (h : sys.canvas = some st) :
    getCanvas sys = (st, sys) := by
  unfold getCanvas
  rw [h]

theorem getCanvas_canvas (sys : Sys) :
    (getCanvas sys).2.canvas = some (getCanvas sys).1 := by
  unfold getCanvas
  cases h : sys.canvas with
  | some st => exact h
  | none => rfl

theorem getCanvas_log (sys : Sys) : (getCanvas sys).2.log = sys.log := by
  unfold getCanvas
  cases h : sys.canvas with
  | some st => rfl
  | none => rfl

theorem getCanvas_palette_extends (sys : Sys) :
    extendsList (sysPalette sys) (getCanvas sys).1.meta.palette := by
  unfold getCanvas sysPalette
  cases h : sys.canvas with
  | some st => exact extendsList_refl _
  | none => exact ⟨DEFAULT_PALETTE, rfl⟩

/-! ## Lemmas about `applyUpdates` -/

theorem applyUpdates_ok_extends {w hgt : ℚ} : ∀ {us : List PixelUpdate}
    {pal px palF pxF}, applyUpdates w hgt pal px us = .ok (palF, pxF) →
    extendsList pal palF := by
  intro us
  induction us with
  | nil =>
    intro pal px palF pxF hap
    unfold applyUpdates at hap
    cases hap
    exact extendsList_refl _
  | cons u rest ih =>
    intro pal px palF pxF hap
    unfold applyUpdates at hap
    split at hap
    · cases hap
    · split at hap
      · cases hap
      · split at hap <;> rename_i heq
        · cases hap
        · exact extendsList_trans (ensure_ok_extends heq).1 (ih hap)

theorem applyUpdates_found {w hgt : ℚ} : ∀ {us : List PixelUpdate}
    {pal px palF pxF}, applyUpdates w hgt pal px us = .ok (palF, pxF) →
    ∀ u ∈ us, ∃ i, jsFindIndex (colorPred u.color) palF = some i := by
  intro us
  induction us with
  | nil =>
    intro pal px palF pxF hap u hu
    cases hu
  | cons u rest ih =>
    intro pal px palF pxF hap u' hu'
    unfold applyUpdates at hap
    split at hap
    · cases hap
    · split at hap
      · cases hap
      · split at hap <;> rename_i heq
        · cases hap
        · rcases List.mem_cons.mp hu' with rfl | hmem
          · obtain ⟨t, rfl⟩ := applyUpdates_ok_extends hap
            exact ⟨_, jsFindIndex_append_some (ensure_found heq)⟩
          · exact ih hap u' hmem

theorem applyUpdates_invalid {w hgt : ℚ} : ∀ {us : List PixelUpdate} {pal px},
    (∃ u ∈ us, updateInvalid w hgt u) →
    ∃ e, applyUpdates w hgt pal px us = .error e ∧
      (e = .outOfBounds ∨ e = .invalidColor ∨ e = .paletteFull) := by
  intro us
  induction us with
  | nil =>
    intro pal px h
    obtain ⟨u, hu, _⟩ := h
    cases hu
  | cons u rest ih =>
    intro pal px h
    obtain ⟨u', hu', hinv⟩ := h
    unfold applyUpdates
    by_cases hc1 : ¬u.x.den = 1 ∨ ¬u.y.den = 1 ∨ u.x < 0 ∨ u.y < 0 ∨ w ≤ u.x ∨ hgt ≤ u.y
    · rw [if_pos hc1]
      exact ⟨.outOfBounds, rfl, Or.inl rfl⟩
    · rw [if_neg hc1]
      by_cases hc2 : (jsTrim u.color).length = 0
      · rw [if_pos hc2]
        exact ⟨.invalidColor, rfl, Or.inr (Or.inl rfl)⟩
      · rw [if_neg hc2]
        cases he : ensureColorInPalette pal u.color with
        | error e =>
          exact ⟨e, rfl, Or.inr (Or.inr (ensure_error_eq he))⟩
        | ok pr =>
          obtain ⟨pal', i⟩ := pr
          apply ih
          rcases List.mem_cons.mp hu' with rfl | hmem
          · exact absurd hinv (by simp [updateInvalid, hc1, hc2])
          · exact ⟨u', hmem, hinv⟩

/-! ## Lemmas about `eventsForUpdates` -/

theorem eventsForUpdates_of_found {pal : List JStr} {src : PixelSource} {now : Nat} :
    ∀ {us : List PixelUpdate},
    (∀ u ∈ us, ∃ i, jsFindIndex (colorPred u.color) pal = some i) →
    (eventsForUpdates pal src now us).2 = none ∧
    ∀ entry ∈ (eventsForUpdates pal src now us).1,
      ∃ e, entry = LogEntry.ev (.pixel_set e) ∧ e.colorIndex < pal.length ∧
        e.timestampMs = now ∧ e.source = src := by
  intro us
  induction us with
  | nil =>
    intro _
    exact ⟨rfl, by intro entry he; cases he⟩
  | cons u rest ih =>
    intro hall
    obtain ⟨i, hfind⟩ := hall u (List.mem_cons_self u rest)
    have ihr := ih fun u' hu' => hall u' (List.mem_cons_of_mem u hu')
    unfold eventsForUpdates
    rw [ensure_found_ok hfind]
    cases hrest : eventsForUpdates pal src now rest with
    | mk es err =>
      rw [hrest] at ihr
      refine ⟨ihr.1, ?_⟩
      intro entry hentry
      rcases List.mem_cons.mp hentry with rfl | hmem
      · exact ⟨_, rfl, jsFindIndex_lt_length hfind, rfl, rfl⟩
      · exact ihr.2 entry hmem

/-! ## Unfolding the service operations over an existing canvas -/

theorem setPixel_unfold {sys : Sys} {st : CanvasState} (x y : ℚ) (color : JStr)
    (source : Option PixelSource) (now : Nat) (hc : sys.canvas = some st) :
    setPixel sys x y color source now =
      if x < 0 ∨ y < 0 ∨ st.meta.width ≤ x ∨ st.meta.height ≤ y then
        (.error .outOfBounds, sys)
      else if (jsTrim color).length = 0 then
        (.error .invalidColor, sys)
      else
        match ensureColorInPalette st.meta.palette color with
        | .error e => (.error e, sys)
        | .ok (palette, indexToSet) =>
          match decodePixelsFromBase64 st.pixelsBase64
              (jsMul st.meta.width st.meta.height) with
          | .error e => (.error e, sys)
          | .ok pixels0 =>
            (.ok ⟨{ st.meta with palette := palette },
                encodePixelsToBase64 (setGridAt pixels0 (indexFor x y st.meta.width) indexToSet)⟩,
             ⟨some ⟨{ st.meta with palette := palette },
                encodePixelsToBase64 (setGridAt pixels0 (indexFor x y st.meta.width) indexToSet)⟩,
              sys.log ++ [.ev (.pixel_set
                ⟨x, y, palette.getD indexToSet [], indexToSet, now, source.getD .system⟩)]⟩) := by
  unfold setPixel
  rw [getCanvas_of_some hc]

theorem setPixels_unfold {sys : Sys} {st : CanvasState} (updates : List PixelUpdate)
    (src : Option PixelSource) (now : Nat) (hc : sys.canvas = some st)
    (hne : updates ≠ []) :
    setPixels sys updates src now =
      match decodePixelsFromBase64 st.pixelsBase64
          (jsMul st.meta.width st.meta.height) with
      | .error e => (.error e, sys)
      | .ok pixels0 =>
        match applyUpdates st.meta.width st.meta.height st.meta.palette pixels0 updates with
        | .error e => (.error e, sys)
        | .ok (palette, pixels) =>
          match (eventsForUpdates palette (src.getD .system) now updates).2 with
          | some e =>
            (.error e, ⟨some ⟨{ st.meta with palette := palette },
              encodePixelsToBase64 pixels⟩,
              sys.log ++ (eventsForUpdates palette (src.getD .system) now updates).1⟩)
          | none =>
            (.ok ⟨{ st.meta with palette := palette }, encodePixelsToBase64 pixels⟩,
             ⟨some ⟨{ st.meta with palette := palette }, encodePixelsToBase64 pixels⟩,
              sys.log ++ (eventsForUpdates palette (src.getD .system) now updates).1⟩) := by
  have hie : updates.isEmpty = false := by
    cases updates with
    | nil => exact absurd rfl hne
    | cons a t => rfl
  unfold setPixels
  rw [getCanvas_of_some hc, if_neg (show ¬(updates.isEmpty = true) by simp [hie])]

theorem resetCanvas_unfold {sys : Sys} {st : CanvasState} (width? height? : Option ℚ)
    (palette? : Option (List JStr)) (hc : sys.canvas = some st) :
    resetCanvas sys width? height? palette? =
      if ¬(width?.getD st.meta.width).den = 1 ∨ ¬(height?.getD st.meta.height).den = 1 ∨
          width?.getD st.meta.width ≤ 0 ∨ height?.getD st.meta.height ≤ 0 then
        (.error .invalidDimensions, sys)
      else
        (.ok ⟨⟨width?.getD st.meta.width, height?.getD st.meta.height,
            palette?.getD st.meta.palette⟩,
          encodePixelsToBase64 (createEmptyPixels (width?.getD st.meta.width)
            (height?.getD st.meta.height))⟩,
         ⟨some ⟨⟨width?.getD st.meta.width, height?.getD st.meta.height,
            palette?.getD st.meta.palette⟩,
          encodePixelsToBase64 (createEmptyPixels (width?.getD st.meta.width)
            (height?.getD st.meta.height))⟩, sys.log⟩) := by
  unfold resetCanvas
  rw [getCanvas_of_some hc]

/-! ## Lemmas about `getCanvasEvents` -/

theorem getCanvasEvents_some_pos {sys : Sys} {q : ℚ} (hq : 0 < q) :
    getCanvasEvents sys (some q) =
      (sys.log.drop (ratToNat (max 0 (jsSub (sys.log.length : ℚ) q)))).filterMap
        parseEntry := by
  unfold getCanvasEvents
  dsimp only
  rw [if_pos hq]

theorem getCanvasEvents_none (sys : Sys) :
    getCanvasEvents sys none = sys.log.filterMap parseEntry := rfl

theorem getCanvasEvents_nonpos {sys : Sys} {q : ℚ} (hq : ¬0 < q) :
    getCanvasEvents sys (some q) = sys.log.filterMap parseEntry := by
  unfold getCanvasEvents
  dsimp only
  rw [if_neg hq]

theorem ratToNat_start (len N : Nat) :
    ratToNat (max 0 (jsSub (len : ℚ) (N : ℚ))) = len - N := by
  rw [jsSub_eq]
  have h1 : ((len : ℚ) - (N : ℚ)) = (((len : Int) - (N : Int) : Int) : ℚ) := by
    push_cast
    ring
  have h2 : max (0 : ℚ) (((len : Int) - (N : Int) : Int) : ℚ) =
      ((max 0 ((len : Int) - (N : Int)) : Int) : ℚ) := by
    rw [Int.cast_max]
    norm_num
  rw [h1, h2]
  unfold ratToNat
  rw [Rat.num_intCast]
  omega

theorem extendsList_nil (l : List α) : extendsList [] l := ⟨l, rfl⟩

/-! ## Claim theorems -/

/-- C7: decoding inverts encoding — for every grid of bytes,
`decodePixelsFromBase64 (encodePixelsToBase64 grid) grid.length` returns the
grid unchanged; and `decodePixelsFromBase64` fails, always with the
length-mismatch error, exactly when the decoded byte count differs from
`expectedLength`. -/
theorem pixelCodec_roundTrip (pixels : List Nat) (h : ∀ b ∈ pixels, b < 256) :
    decodePixelsFromBase64 (encodePixelsToBase64 pixels) ((pixels.length : ℚ)) =
      .ok pixels ∧
    ∀ (b64 : JStr) (expected : ℚ),
      (decodePixelsFromBase64 b64 expected = .error .lengthMismatch ↔
        ((base64DecodeBytes b64).length : ℚ) ≠ expected) :=
  ⟨decodePixels_encode_ok h, decodePixels_error_iff⟩

theorem pixelCodec_roundTrip_witness :
    (∀ b ∈ [0, 7, 255, 13], b < 256) ∧
    decodePixelsFromBase64 (encodePixelsToBase64 [0, 7, 255, 13])
      ((([0, 7, 255, 13] : List Nat).length : ℚ)) = .ok [0, 7, 255, 13] :=
  ⟨by decide, (pixelCodec_roundTrip [0, 7, 255, 13] (by decide)).1⟩

/-- C8: `ensureColorInPalette` is idempotent — when a call returns the palette
`pal'` and index `i`, calling it again on `pal'` with the same color returns
the same index and leaves the palette unchanged: entries equal after
normalization are never duplicated. -/
theorem ensureColor_idem (pal pal' : List JStr) (color : JStr) (i : Nat)
    (h : ensureColorInPalette pal color = .ok (pal', i)) :
    ensureColorInPalette pal' color = .ok (pal', i) :=
  ensure_found_ok (ensure_found h)

theorem ensureColor_idem_witness :
    ensureColorInPalette [] (strCodes "#abc") = .ok ([strCodes "#aabbcc"], 0) ∧
    ensureColorInPalette [strCodes "#aabbcc"] (strCodes "#abc") =
      .ok ([strCodes "#aabbcc"], 0) :=
  ⟨by decide, ensureColor_idem [] [strCodes "#aabbcc"] (strCodes "#abc") 0 (by decide)⟩

/-- C5: with a positive integer limit `N`, `getCanvasEvents` returns exactly
the well-formed entries of the window that drops the first
`log.length - N` entries (the window start `max 0 (length - N)`), in stored
(oldest-first) order, and hence at most `N` events. -/
theorem getCanvasEvents_limit (sys : Sys) (N : Nat) (h : 0 < N) :
    getCanvasEvents sys (some (N : ℚ)) =
      (sys.log.drop (sys.log.length - N)).filterMap parseEntry ∧
    (getCanvasEvents sys (some (N : ℚ))).length ≤ N := by
  have hq : (0 : ℚ) < (N : ℚ) := by exact_mod_cast h
  have he := @getCanvasEvents_some_pos sys _ hq
  rw [ratToNat_start] at he
  refine ⟨he, ?_⟩
  rw [he]
  calc ((sys.log.drop (sys.log.length - N)).filterMap parseEntry).length
      ≤ (sys.log.drop (sys.log.length - N)).length := List.length_filterMap_le _ _
    _ ≤ N := by
        rw [List.length_drop]
        omega

theorem getCanvasEvents_limit_witness :
    0 < 2 ∧
    getCanvasEvents ⟨none, [LogEntry.junk [], LogEntry.ev (.tool_used .get_canvas [] 1),
        LogEntry.ev (.tool_used .set_pixel [] 2)]⟩ (some ((2 : Nat) : ℚ)) =
      (([LogEntry.junk [], LogEntry.ev (.tool_used .get_canvas [] 1),
        LogEntry.ev (.tool_used .set_pixel [] 2)] :
          List LogEntry).drop
        (([LogEntry.junk [], LogEntry.ev (.tool_used .get_canvas [] 1),
        LogEntry.ev (.tool_used .set_pixel [] 2)] : List LogEntry).length - 2)).filterMap
        parseEntry :=
  ⟨by decide,
   (getCanvasEvents_limit ⟨none, [LogEntry.junk [], LogEntry.ev (.tool_used .get_canvas [] 1),
      LogEntry.ev (.tool_used .set_pixel [] 2)]⟩ 2 (by decide)).1⟩

/-- C10: a limit that is not a number strictly greater than zero (omitted,
zero, or negative) makes `getCanvasEvents` return the whole log's
well-formed entries oldest-first, not an empty result or an error. -/
theorem getCanvasEvents_fullLog (sys : Sys) (limit : Option ℚ)
    (h : ∀ q, limit = some q → ¬0 < q) :
    getCanvasEvents sys limit = sys.log.filterMap parseEntry := by
  cases limit with
  | none => exact getCanvasEvents_none sys
  | some q => exact getCanvasEvents_nonpos (h q rfl)

theorem getCanvasEvents_fullLog_witness :
    (∀ q : ℚ, (some (0 : ℚ) = some q) → ¬0 < q) ∧
    getCanvasEvents ⟨none, [LogEntry.ev (.tool_used .get_events [] 3)]⟩ (some (0 : ℚ)) =
      ([LogEntry.ev (.tool_used .get_events [] 3)] : List LogEntry).filterMap parseEntry :=
  ⟨fun q hq => by cases hq; decide,
   getCanvasEvents_fullLog ⟨none, [LogEntry.ev (.tool_used .get_events [] 3)]⟩
     (some (0 : ℚ)) (fun q hq => by cases hq; decide)⟩

/-- C6: with a stored canvas, a `setPixel` call whose coordinates satisfy
`x = width`, `x < 0`, `y = height` or `y < 0` fails with the out-of-bounds
error, leaves the persisted state untouched and appends no event. -/
theorem setPixel_outOfBounds (sys : Sys) (st : CanvasState) (x y : ℚ) (color : JStr)
    (source : Option PixelSource) (now : Nat)
    (hc : sys.canvas = some st)
    (hb : x = st.meta.width ∨ x < 0 ∨ y = st.meta.height ∨ y < 0) :
    setPixel sys x y color source now = (.error .outOfBounds, sys) := by
  have hcond : x < 0 ∨ y < 0 ∨ st.meta.width ≤ x ∨ st.meta.height ≤ y := by
    rcases hb with rfl | hb | rfl | hb
    · exact Or.inr (Or.inr (Or.inl le_rfl))
    · exact Or.inl hb
    · exact Or.inr (Or.inr (Or.inr le_rfl))
    · exact Or.inr (Or.inl hb)
  rw [setPixel_unfold x y color source now hc, if_pos hcond]

theorem setPixel_outOfBounds_witness :
    (⟨some ⟨⟨1, 1, [strCodes "#FFFFFF"]⟩, strCodes "AA=="⟩, []⟩ : Sys).canvas =
      some ⟨⟨1, 1, [strCodes "#FFFFFF"]⟩, strCodes "AA=="⟩ ∧
    ((1 : ℚ) = (⟨⟨1, 1, [strCodes "#FFFFFF"]⟩, strCodes "AA=="⟩ : CanvasState).meta.width ∨
      (1 : ℚ) < 0 ∨ (0 : ℚ) = (⟨⟨1, 1, [strCodes "#FFFFFF"]⟩,
        strCodes "AA=="⟩ : CanvasState).meta.height ∨ (0 : ℚ) < 0) ∧
    setPixel ⟨some ⟨⟨1, 1, [strCodes "#FFFFFF"]⟩, strCodes "AA=="⟩, []⟩ 1 0
        (strCodes "#FFF") none 9 =
      (.error .outOfBounds, ⟨some ⟨⟨1, 1, [strCodes "#FFFFFF"]⟩, strCodes "AA=="⟩, []⟩) :=
  ⟨rfl, by decide,
   setPixel_outOfBounds _ ⟨⟨1, 1, [strCodes "#FFFFFF"]⟩, strCodes "AA=="⟩ 1 0
     (strCodes "#FFF") none 9 rfl (by decide)⟩

/-- C1 (amended): a successful `setPixel` appends exactly one `pixel_set`
event; its color field is the persisted palette's entry at the resolved
index — equal to the normalized input only up to normalization, since a
matching pre-existing entry is reported as stored (e.g. `"#FFFFFF"` from the
default palette), not re-normalized. -/
theorem setPixel_success_event (sys : Sys) (st : CanvasState) (x y : ℚ)
    (color : JStr) (source : Option PixelSource) (now : Nat) (pal : List JStr)
    (i : Nat) (px0 : List Nat)
    (hc : sys.canvas = some st)
    (hb : ¬(x < 0 ∨ y < 0 ∨ st.meta.width ≤ x ∨ st.meta.height ≤ y))
    (hcol : ¬(jsTrim color).length = 0)
    (he : ensureColorInPalette st.meta.palette color = .ok (pal, i))
    (hd : decodePixelsFromBase64 st.pixelsBase64
      (jsMul st.meta.width st.meta.height) = .ok px0) :
    setPixel sys x y color source now =
      (.ok ⟨{ st.meta with palette := pal },
          encodePixelsToBase64 (setGridAt px0 (indexFor x y st.meta.width) i)⟩,
       ⟨some ⟨{ st.meta with palette := pal },
          encodePixelsToBase64 (setGridAt px0 (indexFor x y st.meta.width) i)⟩,
        sys.log ++ [.ev (.pixel_set
          ⟨x, y, pal.getD i [], i, now, source.getD .system⟩)]⟩) ∧
    normalizeColorString (pal.getD i []) = normalizeColorString color := by
  refine ⟨?_, ensure_getD_normalize he⟩
  rw [setPixel_unfold x y color source now hc, if_neg hb, if_neg hcol, he, hd]

theorem setPixel_success_event_witness :
    (⟨some ⟨⟨1, 1, [strCodes "#FFFFFF"]⟩, strCodes "AA=="⟩, []⟩ : Sys).canvas =
      some ⟨⟨1, 1, [strCodes "#FFFFFF"]⟩, strCodes "AA=="⟩ ∧
    (setPixel ⟨some ⟨⟨1, 1, [strCodes "#FFFFFF"]⟩, strCodes "AA=="⟩, []⟩ 0 0
        (strCodes "#FFF") none 4).2.log =
      [] ++ [.ev (.pixel_set ⟨0, 0, [strCodes "#FFFFFF"].getD 0 [], 0, 4, .system⟩)] ∧
    normalizeColorString ([strCodes "#FFFFFF"].getD 0 []) =
      normalizeColorString (strCodes "#FFF") := by
  have h := setPixel_success_event
    ⟨some ⟨⟨1, 1, [strCodes "#FFFFFF"]⟩, strCodes "AA=="⟩, []⟩
    ⟨⟨1, 1, [strCodes "#FFFFFF"]⟩, strCodes "AA=="⟩ 0 0 (strCodes "#FFF") none 4
    [strCodes "#FFFFFF"] 0 [0] rfl (by decide) (by decide) (by decide) (by decide)
  refine ⟨rfl, ?_, h.2⟩
  rw [h.1]
  rfl

/-- C1 counterexample: on the freshly initialized default canvas,
`setPixel(0,0,"#FFF")` appends a `pixel_set` event whose color is the default
palette's stored entry `"#FFFFFF"`, which is not the normalized string
`"#ffffff"` the claim asserts. -/
theorem setPixel_default_color_counterexample :
    lastPixelColor (setPixel sysDefault 0 0 (strCodes "#FFF") none 0).2 =
      some (strCodes "#FFFFFF") ∧
    strCodes "#FFFFFF" ≠ strCodes "#ffffff" := by
  constructor
  · have hc : sysDefault.canvas = some defaultState := rfl
    have hens : ensureColorInPalette defaultState.meta.palette (strCodes "#FFF") =
        .ok (DEFAULT_PALETTE, 0) := by decide
    have hmem : ∀ b ∈ createEmptyPixels 64 64, b < 256 := by
      intro b hb
      unfold createEmptyPixels at hb
      have := List.eq_of_mem_replicate hb
      omega
    have hlen : ((createEmptyPixels 64 64).length : ℚ) =
        jsMul defaultState.meta.width defaultState.meta.height := by
      show ((createEmptyPixels 64 64).length : ℚ) = jsMul 64 64
      unfold createEmptyPixels
      rw [List.length_replicate,
        show ratToNat (jsMul 64 64) = 4096 from by decide,
        show jsMul 64 64 = (4096 : ℚ) from by decide]
      norm_num
    have hdec : decodePixelsFromBase64 defaultState.pixelsBase64
        (jsMul defaultState.meta.width defaultState.meta.height) =
        .ok (createEmptyPixels 64 64) := by
      have h0 := decodePixels_encode_ok hmem
      rw [hlen] at h0
      exact h0
    rw [setPixel_unfold 0 0 (strCodes "#FFF") none 0 hc,
      if_neg (by decide), if_neg (by decide), hens, hdec]
    decide
  · decide

/-- C9: `setPixel` does not require integer coordinates — a non-integer
coordinate inside `[0,width) × [0,height)` raises no error, persists a state
and appends a `pixel_set` event (the grid write is silently dropped by the
typed array), whereas `setPixels` rejects the same update with its
out-of-bounds error and leaves the backend untouched. -/
theorem setPixel_nonIntegerCoords (sys : Sys) (st : CanvasState) (x y : ℚ)
    (color : JStr) (source : Option PixelSource) (now : Nat) (pal : List JStr)
    (i : Nat) (px0 : List Nat)
    (hc : sys.canvas = some st)
    (hni : ¬x.den = 1 ∨ ¬y.den = 1)
    (hx0 : 0 ≤ x) (hxw : x < st.meta.width) (hy0 : 0 ≤ y) (hyh : y < st.meta.height)
    (hcol : ¬(jsTrim color).length = 0)
    (he : ensureColorInPalette st.meta.palette color = .ok (pal, i))
    (hd : decodePixelsFromBase64 st.pixelsBase64
      (jsMul st.meta.width st.meta.height) = .ok px0) :
    setPixel sys x y color source now =
      (.ok ⟨{ st.meta with palette := pal },
          encodePixelsToBase64 (setGridAt px0 (indexFor x y st.meta.width) i)⟩,
       ⟨some ⟨{ st.meta with palette := pal },
          encodePixelsToBase64 (setGridAt px0 (indexFor x y st.meta.width) i)⟩,
        sys.log ++ [.ev (.pixel_set
          ⟨x, y, pal.getD i [], i, now, source.getD .system⟩)]⟩) ∧
    setPixels sys [⟨x, y, color⟩] source now = (.error .outOfBounds, sys) := by
  constructor
  · rw [setPixel_unfold x y color source now hc,
      if_neg (by push_neg; exact ⟨hx0, hy0, hxw, hyh⟩), if_neg hcol, he, hd]
  · have hap : applyUpdates st.meta.width st.meta.height st.meta.palette px0
        [⟨x, y, color⟩] = .error .outOfBounds := by
      unfold applyUpdates
      rw [if_pos]
      rcases hni with hni | hni
      · exact Or.inl hni
      · exact Or.inr (Or.inl hni)
    rw [setPixels_unfold [⟨x, y, color⟩] source now hc (by simp), hd]
    dsimp only
    rw [hap]

theorem setPixel_nonIntegerCoords_witness :
    (⟨some ⟨⟨1, 1, [strCodes "#FFFFFF"]⟩, strCodes "AA=="⟩, []⟩ : Sys).canvas =
      some ⟨⟨1, 1, [strCodes "#FFFFFF"]⟩, strCodes "AA=="⟩ ∧
    ¬(Rat.divInt 1 2).den = 1 ∧
    (setPixel ⟨some ⟨⟨1, 1, [strCodes "#FFFFFF"]⟩, strCodes "AA=="⟩, []⟩ (Rat.divInt 1 2) 0
        (strCodes "#FFF") none 6).2.log =
      [] ++ [.ev (.pixel_set ⟨Rat.divInt 1 2, 0, [strCodes "#FFFFFF"].getD 0 [], 0, 6, .system⟩)] ∧
    setPixels ⟨some ⟨⟨1, 1, [strCodes "#FFFFFF"]⟩, strCodes "AA=="⟩, []⟩
        [⟨Rat.divInt 1 2, 0, strCodes "#FFF"⟩] none 6 =
      (.error .outOfBounds, ⟨some ⟨⟨1, 1, [strCodes "#FFFFFF"]⟩, strCodes "AA=="⟩, []⟩) := by
  have h := setPixel_nonIntegerCoords
    ⟨some ⟨⟨1, 1, [strCodes "#FFFFFF"]⟩, strCodes "AA=="⟩, []⟩
    ⟨⟨1, 1, [strCodes "#FFFFFF"]⟩, strCodes "AA=="⟩ (Rat.divInt 1 2) 0 (strCodes "#FFF")
    none 6 [strCodes "#FFFFFF"] 0 [0] rfl (Or.inl (by decide)) (by decide) (by decide)
    (by decide) (by decide) (by decide) (by decide) (by decide)
  refine ⟨rfl, by decide, ?_, h.2⟩
  rw [h.1]
  rfl

/-- C3 (amended): with a stored canvas and a well-formed stored grid, a batch
containing an update that fails coordinate or color validation is rejected as
a whole: nothing is persisted and no event is appended; the error is
OutOfBounds or InvalidColor, except that an earlier update's fresh color
meeting the full 256-entry palette surfaces as PaletteFull instead. -/
theorem setPixels_invalid_batch (sys : Sys) (st : CanvasState)
    (updates : List PixelUpdate) (src : Option PixelSource) (now : Nat)
    (px0 : List Nat)
    (hc : sys.canvas = some st)
    (hd : decodePixelsFromBase64 st.pixelsBase64
      (jsMul st.meta.width st.meta.height) = .ok px0)
    (hinv : ∃ u ∈ updates, updateInvalid st.meta.width st.meta.height u) :
    ∃ e, setPixels sys updates src now = (.error e, sys) ∧
      (e = .outOfBounds ∨ e = .invalidColor ∨ e = .paletteFull) := by
  have hne : updates ≠ [] := by
    obtain ⟨u, hu, _⟩ := hinv
    intro h0
    rw [h0] at hu
    cases hu
  obtain ⟨e, hap, hkind⟩ :=
    @applyUpdates_invalid st.meta.width st.meta.height updates st.meta.palette px0 hinv
  refine ⟨e, ?_, hkind⟩
  rw [setPixels_unfold updates src now hc hne, hd]
  dsimp only
  rw [hap]

theorem setPixels_invalid_batch_witness :
    (∃ u ∈ [PixelUpdate.mk 0 0 (strCodes "#abc"), PixelUpdate.mk 5 0 (strCodes "#def")],
      updateInvalid (1 : ℚ) (1 : ℚ) u) ∧
    (∃ e, setPixels ⟨some ⟨⟨1, 1, [strCodes "#FFFFFF"]⟩, strCodes "AA=="⟩, []⟩
        [PixelUpdate.mk 0 0 (strCodes "#abc"), PixelUpdate.mk 5 0 (strCodes "#def")]
        none 2 =
      (.error e, ⟨some ⟨⟨1, 1, [strCodes "#FFFFFF"]⟩, strCodes "AA=="⟩, []⟩) ∧
      (e = .outOfBounds ∨ e = .invalidColor ∨ e = .paletteFull)) :=
  ⟨⟨PixelUpdate.mk 5 0 (strCodes "#def"), by decide, Or.inl (by decide)⟩,
   setPixels_invalid_batch ⟨some ⟨⟨1, 1, [strCodes "#FFFFFF"]⟩, strCodes "AA=="⟩, []⟩
     ⟨⟨1, 1, [strCodes "#FFFFFF"]⟩, strCodes "AA=="⟩
     [PixelUpdate.mk 0 0 (strCodes "#abc"), PixelUpdate.mk 5 0 (strCodes "#def")]
     none 2 [0] rfl (by decide)
     ⟨PixelUpdate.mk 5 0 (strCodes "#def"), by decide, Or.inl (by decide)⟩⟩

set_option maxRecDepth 8192 in
/-- C3 counterexample: on a 1x1 canvas whose stored palette already has 256
colors, the batch `[{0,0,"znew"}, {5,0,"x"}]` contains an update that fails
coordinate validation (x = 5 ≥ width = 1), yet the call fails with the
PaletteFull error — not OutOfBounds or InvalidColor — because the first
update's fresh color hits the palette cap before the invalid update is
examined. -/
theorem setPixels_paletteFull_counterexample :
    (∃ u ∈ [PixelUpdate.mk 0 0 (strCodes "znew"), PixelUpdate.mk 5 0 (strCodes "x")],
      updateInvalid (1 : ℚ) (1 : ℚ) u) ∧
    (setPixels ⟨some ⟨⟨1, 1, bigPalette⟩, strCodes "AA=="⟩, []⟩
        [PixelUpdate.mk 0 0 (strCodes "znew"), PixelUpdate.mk 5 0 (strCodes "x")]
        none 0).1 = .error .paletteFull ∧
    CanvasError.paletteFull ≠ .outOfBounds ∧
    CanvasError.paletteFull ≠ .invalidColor := by
  refine ⟨⟨PixelUpdate.mk 5 0 (strCodes "x"), by decide, Or.inl (by decide)⟩,
    ?_, by decide, by decide⟩
  decide

/-- C4: when `setPixels` succeeds, the persisted grid is the input-order fold
of the updates over the one decoded grid, the appended log entries are the
events recomputed against the final palette, and every appended event is a
`pixel_set` whose `colorIndex` is strictly below the persisted palette's
length. -/
theorem setPixels_success (sys : Sys) (st : CanvasState)
    (updates : List PixelUpdate) (src : Option PixelSource) (now : Nat)
    (r : CanvasState) (sys' : Sys)
    (hc : sys.canvas = some st)
    (hr : setPixels sys updates src now = (.ok r, sys')) :
    ∃ px0 pal px,
      decodePixelsFromBase64 st.pixelsBase64
        (jsMul st.meta.width st.meta.height) = .ok px0 ∧
      applyUpdates st.meta.width st.meta.height st.meta.palette px0 updates =
        .ok (pal, px) ∧
      r = ⟨{ st.meta with palette := pal }, encodePixelsToBase64 px⟩ ∧
      sys'.canvas = some r ∧
      sys'.log = sys.log ++ (eventsForUpdates pal (src.getD .system) now updates).1 ∧
      ∀ entry ∈ (eventsForUpdates pal (src.getD .system) now updates).1,
        ∃ e, entry = LogEntry.ev (.pixel_set e) ∧ e.colorIndex < pal.length := by
  have hne : updates ≠ [] := by
    intro h0
    subst h0
    rw [show setPixels sys [] src now = (.error .emptyBatch, sys) from rfl] at hr
    simp at hr
  rw [setPixels_unfold updates src now hc hne] at hr
  cases hd : decodePixelsFromBase64 st.pixelsBase64
      (jsMul st.meta.width st.meta.height) with
  | error e =>
    rw [hd] at hr
    simp at hr
  | ok px0 =>
    rw [hd] at hr
    dsimp only at hr
    cases hap : applyUpdates st.meta.width st.meta.height st.meta.palette px0
        updates with
    | error e =>
      rw [hap] at hr
      simp at hr
    | ok pr =>
      obtain ⟨pal, px⟩ := pr
      rw [hap] at hr
      dsimp only at hr
      cases herr : (eventsForUpdates pal (src.getD .system) now updates).2 with
      | some e =>
        rw [herr] at hr
        simp at hr
      | none =>
        rw [herr] at hr
        dsimp only at hr
        obtain ⟨h1, h2⟩ := Prod.mk.injEq .. ▸ hr
        refine ⟨px0, pal, px, rfl, hap, ?_, ?_, ?_, ?_⟩
        · exact (Except.ok.inj h1).symm
        · rw [← h2, ← Except.ok.inj h1]
        · rw [← h2]
        · have hall := applyUpdates_found hap
          have hev := @eventsForUpdates_of_found pal (src.getD .system) now updates hall
          intro entry hentry
          obtain ⟨e, he1, he2, _, _⟩ := hev.2 entry hentry
          exact ⟨e, he1, he2⟩

theorem setPixels_success_witness :
    setPixels ⟨some ⟨⟨1, 1, [strCodes "#FFFFFF"]⟩, strCodes "AA=="⟩, []⟩
        [PixelUpdate.mk 0 0 (strCodes "#000")] none 3 =
      (.ok ⟨⟨1, 1, [strCodes "#FFFFFF", strCodes "#000000"]⟩, strCodes "AQ=="⟩,
       ⟨some ⟨⟨1, 1, [strCodes "#FFFFFF", strCodes "#000000"]⟩, strCodes "AQ=="⟩,
        [.ev (.pixel_set ⟨0, 0, strCodes "#000000", 1, 3, .system⟩)]⟩) ∧
    ∃ px0 pal px,
      decodePixelsFromBase64 (strCodes "AA==") (jsMul 1 1) = .ok px0 ∧
      applyUpdates 1 1 [strCodes "#FFFFFF"] px0 [PixelUpdate.mk 0 0 (strCodes "#000")] =
        .ok (pal, px) ∧
      (⟨⟨1, 1, [strCodes "#FFFFFF", strCodes "#000000"]⟩, strCodes "AQ=="⟩ : CanvasState) =
        ⟨⟨1, 1, pal⟩, encodePixelsToBase64 px⟩ ∧
      ∀ entry ∈ (eventsForUpdates pal PixelSource.system 3
          [PixelUpdate.mk 0 0 (strCodes "#000")]).1,
        ∃ e, entry = LogEntry.ev (.pixel_set e) ∧ e.colorIndex < pal.length := by
  have hr : setPixels ⟨some ⟨⟨1, 1, [strCodes "#FFFFFF"]⟩, strCodes "AA=="⟩, []⟩
      [PixelUpdate.mk 0 0 (strCodes "#000")] none 3 =
      (.ok ⟨⟨1, 1, [strCodes "#FFFFFF", strCodes "#000000"]⟩, strCodes "AQ=="⟩,
       ⟨some ⟨⟨1, 1, [strCodes "#FFFFFF", strCodes "#000000"]⟩, strCodes "AQ=="⟩,
        [.ev (.pixel_set ⟨0, 0, strCodes "#000000", 1, 3, .system⟩)]⟩) := by decide
  obtain ⟨px0, pal, px, h1, h2, h3, _, _, h6⟩ := setPixels_success
    ⟨some ⟨⟨1, 1, [strCodes "#FFFFFF"]⟩, strCodes "AA=="⟩, []⟩
    ⟨⟨1, 1, [strCodes "#FFFFFF"]⟩, strCodes "AA=="⟩
    [PixelUpdate.mk 0 0 (strCodes "#000")] none 3 _ _ rfl hr
  exact ⟨hr, px0, pal, px, h1, h2, h3, h6⟩

/-- C2 (amended): across `getCanvas`, `setPixel`, `setPixels`, and
`resetCanvas` *without a palette override*, the persisted palette only ever
grows by appending: the palette before the operation is an initial segment of
the palette after it, so its length is non-decreasing and existing entries
are never removed or reindexed. `resetCanvas` called with an explicit
palette replaces the palette wholesale and can shrink it (see the
counterexample). -/
theorem palette_monotonic (sys : Sys) (op : CanvasOp)
    (hop : ∀ w h pal, op ≠ CanvasOp.opResetCanvas w h (some pal)) :
    extendsList (sysPalette sys) (sysPalette (applyOp sys op)) := by
  cases hc : sys.canvas with
  | none =>
    rw [show sysPalette sys = [] from by unfold sysPalette; rw [hc]]
    exact extendsList_nil _
  | some st =>
    have hpal : sysPalette sys = st.meta.palette := by
      unfold sysPalette
      rw [hc]
    rw [hpal]
    cases op with
    | opGetCanvas =>
      show extendsList st.meta.palette (sysPalette (getCanvas sys).2)
      rw [getCanvas_of_some hc]
      dsimp only
      rw [hpal]
      exact extendsList_refl _
    | opSetPixel x y color source now =>
      show extendsList st.meta.palette (sysPalette (setPixel sys x y color source now).2)
      rw [setPixel_unfold x y color source now hc]
      split
      · dsimp only
        rw [hpal]
        exact extendsList_refl _
      · split
        · dsimp only
          rw [hpal]
          exact extendsList_refl _
        · split <;> rename_i heq
          · dsimp only
            rw [hpal]
            exact extendsList_refl _
          · rename_i pr
            split
            · dsimp only
              rw [hpal]
              exact extendsList_refl _
            · dsimp only [sysPalette]
              exact (ensure_ok_extends heq).1
    | opSetPixels updates source now =>
      cases updates with
      | nil =>
        show extendsList st.meta.palette (sysPalette (setPixels sys [] source now).2)
        rw [show setPixels sys [] source now = (.error .emptyBatch, sys) from rfl]
        dsimp only
        rw [hpal]
        exact extendsList_refl _
      | cons u rest =>
        show extendsList st.meta.palette
          (sysPalette (setPixels sys (u :: rest) source now).2)
        rw [setPixels_unfold (u :: rest) source now hc (by simp)]
        split
        · dsimp only
          rw [hpal]
          exact extendsList_refl _
        · split <;> rename_i hap
          · dsimp only
            rw [hpal]
            exact extendsList_refl _
          · split
            · dsimp only [sysPalette]
              exact applyUpdates_ok_extends hap
            · dsimp only [sysPalette]
              exact applyUpdates_ok_extends hap
    | opResetCanvas w h palOpt =>
      cases palOpt with
      | some pal => exact absurd rfl (hop w h pal)
      | none =>
        show extendsList st.meta.palette (sysPalette (resetCanvas sys w h none).2)
        rw [resetCanvas_unfold w h none hc]
        split
        · dsimp only
          rw [hpal]
          exact extendsList_refl _
        · dsimp only [sysPalette]
          exact extendsList_refl _

theorem palette_monotonic_witness :
    (∀ w h pal, (CanvasOp.opSetPixel 0 0 (strCodes "#abc") none 5 : CanvasOp) ≠
      CanvasOp.opResetCanvas w h (some pal)) ∧
    extendsList
      (sysPalette ⟨some ⟨⟨1, 1, [strCodes "#FFFFFF"]⟩, strCodes "AA=="⟩, []⟩)
      (sysPalette (applyOp ⟨some ⟨⟨1, 1, [strCodes "#FFFFFF"]⟩, strCodes "AA=="⟩, []⟩
        (CanvasOp.opSetPixel 0 0 (strCodes "#abc") none 5))) :=
  ⟨fun _ _ _ h => CanvasOp.noConfusion h,
   palette_monotonic ⟨some ⟨⟨1, 1, [strCodes "#FFFFFF"]⟩, strCodes "AA=="⟩, []⟩
     (CanvasOp.opSetPixel 0 0 (strCodes "#abc") none 5)
     fun _ _ _ h => CanvasOp.noConfusion h⟩

/-- C2 counterexample: `resetCanvas` with an explicit palette parameter
replaces the stored two-color palette by a one-color palette — the palette
length decreases and the entry `"#000000"` at index 1 is removed, refuting
monotonicity over the full operation set. -/
theorem resetCanvas_palette_shrink_counterexample :
    sysPalette (applyOp ⟨some ⟨⟨1, 1, [strCodes "#FFFFFF", strCodes "#000000"]⟩,
        strCodes "AA=="⟩, []⟩
      (CanvasOp.opResetCanvas none none (some [strCodes "#FFFFFF"]))) =
      [strCodes "#FFFFFF"] ∧
    (sysPalette (applyOp ⟨some ⟨⟨1, 1, [strCodes "#FFFFFF", strCodes "#000000"]⟩,
        strCodes "AA=="⟩, []⟩
      (CanvasOp.opResetCanvas none none (some [strCodes "#FFFFFF"])))).length <
    (sysPalette ⟨some ⟨⟨1, 1, [strCodes "#FFFFFF", strCodes "#000000"]⟩,
        strCodes "AA=="⟩, []⟩).length := by
  constructor
  · decide
  · decide

end MCPlace
